import Mathlib

/-!
# Verification of the gret retargeting engine

A shallow embedding of the RBF deformation-retargeting engine of the gret
add-on, covering the mesh path (`mesh/retarget_mesh.py`) and the armature
path (`rig/retarget_armature.py`).  The numerical core (`gret/rbf.py`) is
not part of the source tree; the definitions that embed it are modelled
from the specification and say so in their doc comments.  All arithmetic
is exact (ℚ for the linear-algebra pipeline, ℝ for the constraint
projector), so floating-point tolerances in the claims are discharged by
exact equalities.
-/

set_option autoImplicit false

namespace Gret

/-- A 3-component point, matching the `Point3` of the data model. -/
abbrev Pt : Type := Fin 3 → ℚ

/-! ## Correspondence sampler arithmetic

`GRET_OT_retarget_mesh.execute` computes `stride = ceil(num_masked / vertex_cap)`
(`mesh/retarget_mesh.py` line 97); `ceil` on naturals is `(a + b - 1) / b`. -/

/-- Ceiling division on naturals, the embedding of Python's
`ceil(a / b)` for non-negative integers `a` and positive `b`. -/
def cdiv (a b : ℕ) : ℕ := (a + b - 1) / b

theorem cdiv_pos {a b : ℕ} (ha : 1 ≤ a) (hb : 1 ≤ b) : 1 ≤ cdiv a b := by
  unfold cdiv
  rw [Nat.le_div_iff_mul_le hb]
  omega

/-- `a ≤ b * cdiv a b`: the rounded-up quotient times the divisor covers `a`. -/
theorem le_mul_cdiv {a b : ℕ} (ha : 1 ≤ a) (hb : 1 ≤ b) : a ≤ b * cdiv a b := by
  unfold cdiv
  have hmod := Nat.div_add_mod (a + b - 1) b
  have hlt : (a + b - 1) % b < b := Nat.mod_lt _ hb
  generalize hq : b * ((a + b - 1) / b) = t at *
  omega

/-- The sampled count bound: `cdiv a s ≤ c` whenever `a ≤ s * c`. -/
theorem cdiv_le_of_le_mul {a s c : ℕ} (hs : 1 ≤ s) (h : a ≤ s * c) :
    cdiv a s ≤ c := by
  unfold cdiv
  rw [Nat.div_le_iff_le_mul_add_pred hs]
  omega

/-- Core arithmetic of the sampler bound: with `s = cdiv m c` the re-divided
count `cdiv m s` never exceeds the cap `c`. -/
theorem cdiv_cdiv_le {m c : ℕ} (hm : 1 ≤ m) (hc : 1 ≤ c) :
    cdiv m (cdiv m c) ≤ c :=
  cdiv_le_of_le_mul (cdiv_pos hm hc)
    (by rw [Nat.mul_comm]; exact le_mul_cdiv hm hc)

/-- `cdiv` unrolled by one element: adding one element to a block of `s`
either starts a new block or extends a partial one. -/
theorem cdiv_succ {s : ℕ} (hs : 1 ≤ s) (n : ℕ) :
    cdiv (n + 1) s = cdiv (n - (s - 1)) s + 1 := by
  unfold cdiv
  rw [show n + 1 + s - 1 = n + s by omega, Nat.add_div_right _ (by omega : 0 < s)]
  rcases Nat.lt_or_ge n (s - 1) with h | h
  · rw [Nat.sub_eq_zero_of_le (le_of_lt h), Nat.zero_add,
      Nat.div_eq_of_lt (by omega : s - 1 < s),
      Nat.div_eq_of_lt (by omega : n < s)]
  · rw [show n - (s - 1) + s - 1 = n by omega]

/-- Stride selection with a skip countdown: take when the countdown is
zero, then skip `s - 1` elements before the next take. -/
def everyNthAux {α : Type} (s : ℕ) : ℕ → List α → List α
  | _, [] => []
  | 0, x :: xs => x :: everyNthAux s (s - 1) xs
  | k + 1, _ :: xs => everyNthAux s k xs

/-- Modelled from the spec: the decimation step of `get_mesh_points`
(`gret/rbf.py`, absent from the tree): "select every stride-th masked point
in original index order", i.e. the points at indices `0, s, 2s, …`. -/
def everyNth {α : Type} (s : ℕ) (xs : List α) : List α := everyNthAux s 0 xs

theorem length_everyNthAux {α : Type} (s : ℕ) (hs : 1 ≤ s) (xs : List α) :
    ∀ k : ℕ, (everyNthAux s k xs).length = cdiv (xs.length - k) s := by
  induction xs with
  | nil =>
    intro k
    rw [show everyNthAux s k ([] : List α) = [] from by cases k <;> rfl]
    unfold cdiv
    simp only [List.length_nil, Nat.zero_sub]
    exact (Nat.div_eq_of_lt (by omega)).symm
  | cons x xs ih =>
    intro k
    cases k with
    | zero =>
      rw [everyNthAux, List.length_cons, ih (s - 1), List.length_cons,
        Nat.sub_zero, cdiv_succ hs]
    | succ k =>
      rw [everyNthAux, ih k, List.length_cons, Nat.succ_sub_succ]

theorem length_everyNth {α : Type} (s : ℕ) (hs : 1 ≤ s) (xs : List α) :
    (everyNth s xs).length = cdiv xs.length s := by
  rw [everyNth, length_everyNthAux s hs xs 0, Nat.sub_zero]

/-! ## Weight solver

`get_weight_matrix` lives in `gret/rbf.py`, which is not in the tree; the
definitions below are modelled from the spec, §4.2: build the Gram matrix
`K`, the polynomial basis `P`, the symmetric augmented system
`[[K, P], [Pᵀ, 0]] · [w; c] = [dst; 0]`, and solve it with a direct dense
solver, failing (a `None`/raised error at the callers) when the system
cannot be solved.  The kernel functions of `rbf.py` are real-valued radial
functions of the distance; since every claim quantifies over the kernel
choice, the composite `(p, q) ↦ k(|p − q|, radius·scale)` is abstracted as
a single function `φ : Pt → Pt → ℚ` throughout. -/

/-- The polynomial basis row `[1, pₓ, p_y, p_z]` (spec §4.2 step 2). -/
def polyRow (p : Pt) : Fin 4 → ℚ := Fin.cons 1 p

/-- Modelled from the spec: the N×N Gram matrix `K`,
`K_ij = k(|src_i − src_j|, radius·scale)`. -/
def kernelMatrix (φ : Pt → Pt → ℚ) {N : ℕ} (src : Fin N → Pt) :
    Matrix (Fin N) (Fin N) ℚ :=
  Matrix.of fun i j => φ (src i) (src j)

/-- Modelled from the spec: the N×4 polynomial basis matrix `P`. -/
def polyMatrix {N : ℕ} (src : Fin N → Pt) : Matrix (Fin N) (Fin 4) ℚ :=
  Matrix.of fun i => polyRow (src i)

/-- Modelled from the spec: the symmetric (N+4)×(N+4) augmented system
matrix `[[K, P], [Pᵀ, 0]]`. -/
def augMatrix (φ : Pt → Pt → ℚ) {N : ℕ} (src : Fin N → Pt) :
    Matrix (Fin N ⊕ Fin 4) (Fin N ⊕ Fin 4) ℚ :=
  Matrix.fromBlocks (kernelMatrix φ src) (polyMatrix src) (polyMatrix src).transpose 0

/-- Modelled from the spec: the right-hand side `[dst; 0]`, one column per
output axis. -/
def rhsMatrix {N : ℕ} (dst : Fin N → Pt) : Matrix (Fin N ⊕ Fin 4) (Fin 3) ℚ :=
  Matrix.of (Sum.elim (fun i k => dst i k) fun _ _ => 0)

/-- Find the first row with a non-zero leading coefficient (partial
pivoting of the direct dense solve). -/
def findPivot : List (List ℚ) → Option (List ℚ × List (List ℚ))
  | [] => none
  | r :: rs =>
    if r.headD 0 ≠ 0 then some (r, rs)
    else
      match findPivot rs with
      | none => none
      | some (p, rest) => some (p, r :: rest)

/-- Eliminate the leading coefficient of `r` using the pivot row `p`. -/
def elimAgainst (p r : List ℚ) : List ℚ :=
  (List.zipWith (fun a b => b - r.headD 0 / p.headD 1 * a) p r).tail

/-- Forward elimination: peel off one pivot row per variable; fails when a
pivot column is entirely zero (a singular system). -/
def forwardElim : ℕ → List (List ℚ) → Option (List (List ℚ))
  | 0, _ => some []
  | n + 1, rows =>
    match findPivot rows with
    | none => none
    | some (p, rest) =>
      match forwardElim n (rest.map (elimAgainst p)) with
      | none => none
      | some ps => some (p :: ps)

/-- Back substitution over the echelon rows; each solution row holds the
three output-axis components of one unknown. -/
def backSub : List (List ℚ) → List (List ℚ)
  | [] => []
  | p :: ps =>
    let sols := backSub ps
    let a := p.headD 1
    let coeffs := p.tail.take sols.length
    let rhs := p.tail.drop sols.length
    let acc := (List.zipWith (fun c s => s.map fun x => c * x) coeffs sols).foldl
      (fun u v => List.zipWith (fun x y => x - y) u v) rhs
    (acc.map fun x => x / a) :: sols

/-- The direct dense solve on row-major data: forward elimination followed
by back substitution. -/
def gaussSolve (n : ℕ) (rows : List (List ℚ)) : Option (List (List ℚ)) :=
  (forwardElim n rows).map backSub

/-- Row-major position of an augmented-system index: the `N` kernel rows
first, then the 4 polynomial rows. -/
def sumPos {N : ℕ} : Fin N ⊕ Fin 4 → ℕ
  | .inl i => i.val
  | .inr j => N + j.val

/-- Flatten the augmented system `[A | B]` into row-major lists for the
dense solver. -/
def matRows {N : ℕ} (A : Matrix (Fin N ⊕ Fin 4) (Fin N ⊕ Fin 4) ℚ)
    (B : Matrix (Fin N ⊕ Fin 4) (Fin 3) ℚ) : List (List ℚ) :=
  ((List.finRange N).map Sum.inl ++ (List.finRange 4).map Sum.inr).map fun i =>
    (((List.finRange N).map Sum.inl ++ (List.finRange 4).map Sum.inr).map fun j => A i j)
      ++ [B i 0, B i 1, B i 2]

/-- Read a row-major solution back into an (N+4)×3 coefficient matrix. -/
def rowsToMat {N : ℕ} (xs : List (List ℚ)) :
    Matrix (Fin N ⊕ Fin 4) (Fin 3) ℚ :=
  Matrix.of fun i k => ((xs.getD (sumPos i) []).getD k.val 0 : ℚ)

/-- Modelled from the spec: solve the augmented system with the direct
dense solver, returning `none` on numerical failure; the solution is
checked against the system, so a successful solve is exact (§4.2 step 5:
never return a best-effort guess). -/
def solveAug {N : ℕ} (A : Matrix (Fin N ⊕ Fin 4) (Fin N ⊕ Fin 4) ℚ)
    (B : Matrix (Fin N ⊕ Fin 4) (Fin 3) ℚ) : Option (List (List ℚ)) :=
  match gaussSolve (N + 4) (matRows A B) with
  | none => none
  | some xs => if A * rowsToMat xs = B then some xs else none

/-- Modelled from the spec: `get_weight_matrix(src_pts, dst_pts, kernel,
radius)` of `gret/rbf.py` — fit the (N+4)×3 weight matrix of the exact
interpolant for the given correspondence set, returned in row-major form
(`rowsToMat` reads it back as a matrix). -/
def get_weight_matrix (φ : Pt → Pt → ℚ) {N : ℕ} (src dst : Fin N → Pt) :
    Option (List (List ℚ)) :=
  solveAug (augMatrix φ src) (rhsMatrix dst)

theorem solveAug_sound {N : ℕ} {A : Matrix (Fin N ⊕ Fin 4) (Fin N ⊕ Fin 4) ℚ}
    {B : Matrix (Fin N ⊕ Fin 4) (Fin 3) ℚ} {ws : List (List ℚ)}
    (h : solveAug A B = some ws) : A * rowsToMat ws = B := by
  unfold solveAug at h
  rcases hg : gaussSolve (N + 4) (matRows A B) with _ | xs
  · rw [hg] at h; exact absurd h (by simp)
  · rw [hg] at h
    dsimp only at h
    by_cases hc : A * rowsToMat xs = B
    · rw [if_pos hc] at h
      cases h
      exact hc
    · rw [if_neg hc] at h
      exact absurd h (by simp)

theorem get_weight_matrix_sound {N : ℕ} {φ : Pt → Pt → ℚ}
    {src dst : Fin N → Pt} {ws : List (List ℚ)}
    (h : get_weight_matrix φ src dst = some ws) :
    augMatrix φ src * rowsToMat ws = rhsMatrix dst :=
  solveAug_sound h

/-! ## Evaluator

Embedded from `mesh/retarget_mesh.py` lines 124–127 (and identically
`rig/retarget_armature.py` lines 156–159): `dist = get_distance_matrix(pts,
src_pts, kernel, radius*scale)`, `h = [[dist, 1, pts]]`, `new = h · weights`.
`get_distance_matrix` itself is in the absent `gret/rbf.py` and is modelled
from the spec §4.3, with the kernel-of-distance composite abstracted as `φ`. -/

/-- Modelled from the spec: `get_distance_matrix(pts, src_pts, kernel, r)`,
the M×N matrix `D_ij = k(|q_i − src_j|, r)` of §4.3. -/
def get_distance_matrix (φ : Pt → Pt → ℚ) {M N : ℕ} (qs : Fin M → Pt)
    (src : Fin N → Pt) : Matrix (Fin M) (Fin N) ℚ :=
  Matrix.of fun i j => φ (qs i) (src j)

/-- The M×(N+4) evaluation matrix `h = [dist | 1 | pts]` of the source. -/
def hMatrix (φ : Pt → Pt → ℚ) {M N : ℕ} (qs : Fin M → Pt) (src : Fin N → Pt) :
    Matrix (Fin M) (Fin N ⊕ Fin 4) ℚ :=
  Matrix.of fun i => Sum.elim (get_distance_matrix φ qs src i) (polyRow (qs i))

/-- Evaluation of the fitted interpolant at a single query point:
`f(q) = Σ_j k(|q − src_j|)·w_j + b + A·q`, one component per output axis. -/
def evaluate (φ : Pt → Pt → ℚ) {N : ℕ} (src : Fin N → Pt)
    (W : Matrix (Fin N ⊕ Fin 4) (Fin 3) ℚ) (q : Pt) : Pt :=
  fun k => ∑ j : Fin N ⊕ Fin 4, Sum.elim (fun t => φ q (src t)) (polyRow q) j * W j k

/-- The batched evaluator of the source loop: build `h` for the whole query
batch and multiply by the weight matrix, producing one mapped point per
query point. -/
def evaluateBatch (φ : Pt → Pt → ℚ) {N : ℕ} (src : Fin N → Pt)
    (W : Matrix (Fin N ⊕ Fin 4) (Fin 3) ℚ) (qs : List Pt) : List Pt :=
  List.ofFn fun i : Fin qs.length => fun k => (hMatrix φ qs.get src * W) i k

/-- C1 — Exact interpolation: whenever fitting a weight set over a
correspondence set succeeds, evaluating the fitted interpolant at each
control source point returns the corresponding target point within 1e-5
absolute tolerance (here: exactly), for every kernel choice `φ`. -/
theorem exact_interpolation (φ : Pt → Pt → ℚ) {N : ℕ} (src dst : Fin N → Pt)
    (ws : List (List ℚ))
    (h : get_weight_matrix φ src dst = some ws) (i : Fin N) (k : Fin 3) :
    |evaluate φ src (rowsToMat ws) (src i) k - dst i k| ≤ 1 / 100000 := by
  have hAW := get_weight_matrix_sound h
  set W : Matrix (Fin N ⊕ Fin 4) (Fin 3) ℚ := rowsToMat ws with hW
  have hrow : evaluate φ src W (src i) k = (augMatrix φ src * W) (Sum.inl i) k := by
    rw [Matrix.mul_apply]
    unfold evaluate
    refine Finset.sum_congr rfl fun j _ => ?_
    rcases j with j | j
    · simp [augMatrix, Matrix.fromBlocks_apply₁₁, kernelMatrix]
    · simp [augMatrix, Matrix.fromBlocks_apply₁₂, polyMatrix]
  rw [hrow, hAW]
  simp [rhsMatrix]

/-- Concrete kernel-of-distance stand-in for witnesses: 0 at distance zero
and 1 elsewhere. -/
def phi0 : Pt → Pt → ℚ := fun p q => if p = q then 0 else 1

/-- Concrete control sources for witnesses: the origin and the three
standard basis points. -/
def src0 : Fin 4 → Pt := fun i k =>
  if i.val = 0 then 0 else if i.val = k.val + 1 then 1 else 0

/-- Concrete control targets for witnesses: the sources scaled by 2. -/
def dst0 : Fin 4 → Pt := fun i k => 2 * src0 i k

/-- The solved weight rows of the concrete witness instance. -/
def ws0 : List (List ℚ) := (get_weight_matrix phi0 src0 dst0).getD []

set_option maxRecDepth 1000000 in
unseal Rat.add Rat.mul Rat.inv Rat.sub in
theorem exact_interpolation_witness :
    get_weight_matrix phi0 src0 dst0 = some ws0 ∧
    |evaluate phi0 src0 (rowsToMat ws0) (src0 0) 0 - dst0 0 0| ≤ 1 / 100000 := by
  have hsome : (get_weight_matrix phi0 src0 dst0).isSome = true := by decide
  have h : get_weight_matrix phi0 src0 dst0 = some ws0 := by
    show _ = some ((get_weight_matrix phi0 src0 dst0).getD [])
    rcases ho : get_weight_matrix phi0 src0 dst0 with _ | w
    · rw [ho] at hsome; exact absurd hsome (by simp)
    · simp
  exact ⟨h, exact_interpolation phi0 src0 dst0 ws0 h 0 0⟩

/-- C5 — the batched evaluator returns exactly one mapped point per query
point, in order, and the i-th output is the row `[k(|q_i − src_j|)…, 1, q_i]`
times the (N+4)×3 weight matrix: kernel sum plus constant plus linear term
per output axis. -/
theorem evaluator_batch_spec (φ : Pt → Pt → ℚ) {N : ℕ} (src : Fin N → Pt)
    (W : Matrix (Fin N ⊕ Fin 4) (Fin 3) ℚ) (qs : List Pt) :
    (evaluateBatch φ src W qs).length = qs.length ∧
    ∀ (i : ℕ), i < qs.length → ∀ (k : Fin 3),
      (evaluateBatch φ src W qs).getD i 0 k =
        (∑ j : Fin N, φ (qs.getD i 0) (src j) * W (Sum.inl j) k) +
        (W (Sum.inr 0) k + ∑ t : Fin 3, qs.getD i 0 t * W (Sum.inr t.succ) k) := by
  constructor
  · simp [evaluateBatch]
  · intro i hi k
    have hlen : i < (evaluateBatch φ src W qs).length := by
      simpa [evaluateBatch] using hi
    rw [List.getD_eq_get _ _ hlen]
    have hq : qs.getD i 0 = qs.get ⟨i, hi⟩ := List.getD_eq_get _ _ hi
    rw [hq]
    rw [show (evaluateBatch φ src W qs).get ⟨i, hlen⟩ =
        fun k => (hMatrix φ qs.get src * W) ⟨i, hi⟩ k by
      unfold evaluateBatch
      rw [List.get_ofFn]
      rfl]
    show (hMatrix φ qs.get src * W) ⟨i, hi⟩ k = _
    rw [Matrix.mul_apply, Fintype.sum_sum_type]
    have h1 : ∀ j : Fin N, hMatrix φ qs.get src ⟨i, hi⟩ (Sum.inl j) =
        φ (qs.get ⟨i, hi⟩) (src j) := fun j => by
      simp [hMatrix, get_distance_matrix]
    have h2 : ∀ t : Fin 4, hMatrix φ qs.get src ⟨i, hi⟩ (Sum.inr t) =
        polyRow (qs.get ⟨i, hi⟩) t := fun t => by
      simp [hMatrix]
    simp only [h1, h2]
    rw [Fin.sum_univ_succ]
    simp [polyRow]

/-- Concrete single control source for the evaluator witness. -/
def srcOne : Fin 1 → Pt := fun _ _ => 0

/-- Concrete all-ones weight matrix for the evaluator witness. -/
def W1 : Matrix (Fin 1 ⊕ Fin 4) (Fin 3) ℚ := fun _ _ => 1

/-- Concrete query point for the evaluator witness. -/
def q0 : Pt := fun k => (k.val : ℚ)

theorem evaluator_batch_spec_witness :
    (0 : ℕ) < [q0].length ∧
    (evaluateBatch phi0 srcOne W1 [q0]).getD 0 0 0 =
      (∑ j : Fin 1, phi0 ([q0].getD 0 0) (srcOne j) * W1 (Sum.inl j) 0) +
      (W1 (Sum.inr 0) 0 + ∑ t : Fin 3, [q0].getD 0 0 t * W1 (Sum.inr t.succ) 0) :=
  ⟨by decide, (evaluator_batch_spec phi0 srcOne W1 [q0]).2 0 (by decide) 0⟩

/-! ## Kernel table

`rbf_kernels` is a dict in the absent `gret/rbf.py`; the callers access it
as `rbf_kernels.get(self.function, (linear, 1.0))`
(`mesh/retarget_mesh.py` line 103, `rig/retarget_armature.py` line 122).
Modelled from the spec: six named kernels, each paired with a canonical
scale constant; the scale values themselves are not pinned by the sources
in the tree, so the table is parametrized by them. -/

/-- The closed enumeration of kernel names of the operator enum. -/
inductive KernelId where
  | LINEAR | GAUSSIAN | PLATE | BIHARMONIC | INV_BIHARMONIC | C2
deriving DecidableEq

/-- Modelled from the spec: the kernel lookup table, keyed by the operator
enum value, each entry a `(kernel, scale)` pair. -/
def rbf_kernels (scales : KernelId → ℚ) : List (String × KernelId × ℚ) :=
  [("LINEAR", (.LINEAR, scales .LINEAR)),
   ("GAUSSIAN", (.GAUSSIAN, scales .GAUSSIAN)),
   ("PLATE", (.PLATE, scales .PLATE)),
   ("BIHARMONIC", (.BIHARMONIC, scales .BIHARMONIC)),
   ("INV_BIHARMONIC", (.INV_BIHARMONIC, scales .INV_BIHARMONIC)),
   ("C2", (.C2, scales .C2))]

/-- `rbf_kernels.get(name, (linear, 1.0))`: dictionary lookup with the
linear kernel at scale 1.0 as the default. -/
def lookupKernel (scales : KernelId → ℚ) (name : String) : KernelId × ℚ :=
  ((rbf_kernels scales).lookup name).getD (.LINEAR, 1)

/-- The kernel-of-distance composite used by a pipeline run: the looked-up
kernel (abstracted by `kimpl`) at smoothing parameter `radius * scale`. -/
def kernelOf (scales : KernelId → ℚ) (kimpl : KernelId → ℚ → Pt → Pt → ℚ)
    (fname : String) (radius : ℚ) : Pt → Pt → ℚ :=
  kimpl (lookupKernel scales fname).1 (radius * (lookupKernel scales fname).2)

/-! ## Host data model

Objects as the operators see them: an id (Python object identity), a name,
a type string, mesh data (vertices, per-vertex selection, shape keys), an
object-to-world transform (an invertible map, `obj.matrix_world`), plus
bone and edit-mode data for armature objects. -/

/-- One shape key block: a name and its point coordinates. -/
structure ShapeKey where
  name : String
  pts : List Pt

/-- Mesh data: vertex coordinates, per-vertex selection flags, shape keys. -/
structure MeshData where
  verts : List Pt
  selection : List Bool
  shapeKeys : List ShapeKey

/-- A rigid skeletal segment: head and tail points and a selection flag. -/
structure Bone where
  head : Pt
  tail : Pt
  selected : Bool

/-- A scene object as seen by the operators. -/
structure Obj where
  id : ℕ
  name : String
  objType : String
  data : MeshData
  xform : Equiv Pt Pt
  bones : List Bone
  editing : Bool

/-- The outcome of an operator invocation, as returned by `execute`. -/
inductive OpResult where
  | FINISHED : OpResult
  | CANCELLED : String → OpResult
deriving DecidableEq

def errNoVerts : String := "Source mesh has no vertices."
def errCountMismatch : String :=
  "Source and destination meshes must have equal number of vertices."
def errNoSelection : String := "Source mesh has no vertices selected."
def errSolveFailed : String := "Failed to retarget. Try a different function or radius."

/-- `mask = [v.select for v in src_obj.data.vertices] if only_selection else None`. -/
def maskFor (only_selection : Bool) (src_obj : Obj) : Option (List Bool) :=
  if only_selection then some src_obj.data.selection else none

/-- `num_masked = sum(mask) if mask else num_vertices`. -/
def numMaskedFor (only_selection : Bool) (src_obj : Obj) : ℕ :=
  match maskFor only_selection src_obj with
  | some m => m.count true
  | none => src_obj.data.verts.length

/-- `stride = ceil(num_masked / vertex_cap)`. -/
def strideFor (only_selection : Bool) (src_obj : Obj) (cap : ℕ) : ℕ :=
  cdiv (numMaskedFor only_selection src_obj) cap

/-- The three input-validation checks of both `execute` paths, in source
order: no source vertices, source/destination count mismatch, and an empty
vertex selection. -/
def validationError (src_obj dst_obj : Obj) (only_selection : Bool) : Option String :=
  if src_obj.data.verts.length = 0 then some errNoVerts
  else if src_obj.data.verts.length ≠ dst_obj.data.verts.length then some errCountMismatch
  else if numMaskedFor only_selection src_obj = 0 then some errNoSelection
  else none

/-- Restrict a point list to its masked entries, in index order. -/
def maskPoints (mask : Option (List Bool)) (pts : List Pt) : List Pt :=
  match mask with
  | none => pts
  | some m => ((pts.zip m).filter fun vm => vm.2).map fun vm => vm.1

/-- The point cloud of a mesh, or of one of its shape keys when a shape-key
destination is used. -/
def meshCloud (d : MeshData) (shapeKey : Option String) : List Pt :=
  match shapeKey with
  | none => d.verts
  | some n => (((d.shapeKeys.find? fun sk => sk.name == n).map ShapeKey.pts).getD d.verts)

/-- Modelled from the spec: `get_mesh_points(obj, shape_key, mask, stride)`
of `gret/rbf.py` — the masked cloud decimated to every stride-th point. -/
def get_mesh_points (d : MeshData) (shapeKey : Option String)
    (mask : Option (List Bool)) (stride : ℕ) : List Pt :=
  everyNth stride (maskPoints mask (meshCloud d shapeKey))

/-- Fit weights over list-shaped clouds; the source sample count sets the
system size. -/
def fitWeights (φ : Pt → Pt → ℚ) (src dst : List Pt) : Option (List (List ℚ)) :=
  get_weight_matrix φ src.get fun i => dst.getD i 0

/-! ## Mesh operator (`GRET_OT_retarget_mesh.execute`) -/

/-- The mesh operator configuration (`mesh/retarget_mesh.py` properties). -/
structure MeshConfig where
  function : String
  radius : ℚ
  only_selection : Bool
  high_quality : Bool
  as_shape_key : Bool

/-- One mesh-retarget invocation: configuration, the selected objects, the
resolved source and destination objects, and the destination shape-key name
when the destination string carried the `s_` prefix (in which case
`dst_obj = src_obj` in the source). -/
structure MeshInvocation where
  cfg : MeshConfig
  selected : List Obj
  src_obj : Obj
  dst_obj : Obj
  dst_shape_key : Option String

/-- `vertex_cap = 5000 if self.high_quality else 1000`
(`mesh/retarget_mesh.py` line 94). -/
def vertexCap (cfg : MeshConfig) : ℕ := if cfg.high_quality then 5000 else 1000

def meshMask (inv : MeshInvocation) : Option (List Bool) :=
  maskFor inv.cfg.only_selection inv.src_obj

def meshNumMasked (inv : MeshInvocation) : ℕ :=
  numMaskedFor inv.cfg.only_selection inv.src_obj

def meshStride (inv : MeshInvocation) : ℕ :=
  strideFor inv.cfg.only_selection inv.src_obj (vertexCap inv.cfg)

def meshValidationError (inv : MeshInvocation) : Option String :=
  validationError inv.src_obj inv.dst_obj inv.cfg.only_selection

/-- The sampled source control points of the mesh path. -/
def meshSrcPts (inv : MeshInvocation) : List Pt :=
  get_mesh_points inv.src_obj.data none (meshMask inv) (meshStride inv)

/-- The sampled destination control points of the mesh path. -/
def meshDstPts (inv : MeshInvocation) : List Pt :=
  get_mesh_points inv.dst_obj.data inv.dst_shape_key (meshMask inv) (meshStride inv)

/-- The weight solve of the mesh path; `none` embeds the raised
`np.linalg.LinAlgError` caught at the call site. -/
def meshWeights (scales : KernelId → ℚ) (kimpl : KernelId → ℚ → Pt → Pt → ℚ)
    (inv : MeshInvocation) : Option (List (List ℚ)) :=
  fitWeights (kernelOf scales kimpl inv.cfg.function inv.cfg.radius)
    (meshSrcPts inv) (meshDstPts inv)

/-- Write mapped points back to a mesh: as a new shape key (adding a Basis
key first if the mesh had none), or as new vertex coordinates (both the
bmesh basis-replace path and the direct `foreach_set` path). -/
def writeBack (as_shape_key : Bool) (dstName : String) (dstShapeKey : Option String)
    (d : MeshData) (newPts : List Pt) : MeshData :=
  if as_shape_key then
    let d1 := if d.shapeKeys.isEmpty then { d with shapeKeys := [⟨"Basis", d.verts⟩] } else d
    let skName := "Retarget_" ++ dstName ++
      (match dstShapeKey with | some n => "_" ++ n | none => "")
    { d1 with shapeKeys := d1.shapeKeys ++ [⟨skName, newPts⟩] }
  else { d with verts := newPts }

/-- The per-object body of the mesh loop (`mesh/retarget_mesh.py` lines
113–157): skip non-meshes and the source and destination objects, map the
object's vertices into destination space, evaluate, map back, write back. -/
def processObj (φ : Pt → Pt → ℚ) {N : ℕ} (src : Fin N → Pt)
    (W : Matrix (Fin N ⊕ Fin 4) (Fin 3) ℚ) (inv : MeshInvocation) (obj : Obj) : Obj :=
  if obj.objType ≠ "MESH" ∨ obj.id = inv.src_obj.id ∨ obj.id = inv.dst_obj.id then obj
  else
    let dst_to_obj : Equiv Pt Pt := inv.dst_obj.xform.trans obj.xform.symm
    let obj_to_dst := dst_to_obj.symm
    let mesh_pts := obj.data.verts.map fun p => obj_to_dst p
    if mesh_pts.length = 0 then obj
    else
      let new_pts := (evaluateBatch φ src W mesh_pts).map fun p => dst_to_obj p
      { obj with data :=
          writeBack inv.cfg.as_shape_key inv.dst_obj.name inv.dst_shape_key obj.data new_pts }

/-- `GRET_OT_retarget_mesh.execute`: validate, sample, solve, then rewrite
every selected mesh object other than the source and destination; on any
failure cancel with the reported message and leave every object unchanged. -/
def meshExecute (scales : KernelId → ℚ) (kimpl : KernelId → ℚ → Pt → Pt → ℚ)
    (inv : MeshInvocation) : OpResult × List Obj :=
  match meshValidationError inv with
  | some msg => (.CANCELLED msg, inv.selected)
  | none =>
    match meshWeights scales kimpl inv with
    | none => (.CANCELLED errSolveFailed, inv.selected)
    | some ws =>
      (.FINISHED, inv.selected.map
        (processObj (kernelOf scales kimpl inv.cfg.function inv.cfg.radius)
          (meshSrcPts inv).get (rowsToMat ws) inv))

/-! ## Armature operator (`GRET_OT_retarget_armature.execute`) -/

/-- The armature operator configuration (`rig/retarget_armature.py`
properties). -/
structure ArmConfig where
  function : String
  radius : ℚ
  invert : Bool
  use_object_transform : Bool
  only_selection : Bool
  high_quality : Bool
  use_mirror_x : Bool
  lock_length : Bool
  lock_direction : Bool

/-- One armature-retarget invocation.  `capLow`/`capHigh` are the
preference values `mesh__retarget_num_vertices_low/high`, whose definitions
are outside the tree. -/
structure ArmInvocation where
  cfg : ArmConfig
  selected : List Obj
  src_obj : Obj
  dst_obj : Obj
  dst_shape_key : Option String
  capLow : ℕ
  capHigh : ℕ

def armVertexCap (inv : ArmInvocation) : ℕ :=
  if inv.cfg.high_quality then inv.capHigh else inv.capLow

def armMask (inv : ArmInvocation) : Option (List Bool) :=
  maskFor inv.cfg.only_selection inv.src_obj

def armStride (inv : ArmInvocation) : ℕ :=
  strideFor inv.cfg.only_selection inv.src_obj (armVertexCap inv)

def armValidationError (inv : ArmInvocation) : Option String :=
  validationError inv.src_obj inv.dst_obj inv.cfg.only_selection

/-- Negate the X coordinate of a point. -/
def reflectX (p : Pt) : Pt := fun k => if k = 0 then -(p k) else p k

/-- Modelled from the spec, §4.1: mirror augmentation appends, for every
sampled point, its reflection across the X axis. -/
def mirrorPts (pts : List Pt) : List Pt := pts ++ pts.map reflectX

/-- The armature path's sampling of one cloud: masked, decimated, and
mirror-augmented when X-axis mirroring is requested. -/
def armSample (inv : ArmInvocation) (shapeKey : Option String) (d : MeshData) : List Pt :=
  let pts := get_mesh_points d shapeKey (armMask inv) (armStride inv)
  if inv.cfg.use_mirror_x then mirrorPts pts else pts

def armSrcSampled (inv : ArmInvocation) : List Pt := armSample inv none inv.src_obj.data

def armDstSampled (inv : ArmInvocation) : List Pt :=
  armSample inv inv.dst_shape_key inv.dst_obj.data

/-- `if self.invert: src_pts, dst_pts = dst_pts, src_pts`
(`rig/retarget_armature.py` lines 130–131): the clouds are exchanged once,
after sampling and before the solve. -/
def armEffSrc (inv : ArmInvocation) : List Pt :=
  if inv.cfg.invert then armDstSampled inv else armSrcSampled inv

def armEffDst (inv : ArmInvocation) : List Pt :=
  if inv.cfg.invert then armSrcSampled inv else armDstSampled inv

/-- The weight solve of the armature path; the source checks the returned
weight matrix against `None`. -/
def armWeights (scales : KernelId → ℚ) (kimpl : KernelId → ℚ → Pt → Pt → ℚ)
    (inv : ArmInvocation) : Option (List (List ℚ)) :=
  fitWeights (kernelOf scales kimpl inv.cfg.function inv.cfg.radius)
    (armEffSrc inv) (armEffDst inv)

/-- Modelled from the spec: `get_armature_points(obj, matrix)` of
`gret/rbf.py` — the heads and tails of every bone, interleaved per bone, in
the given space. -/
def get_armature_points (bones : List Bone) (m : Pt → Pt) : List Pt :=
  bones.flatMap fun b => [m b.head, m b.tail]

/-- Modelled from the spec: the structural part of `set_armature_points` of
`gret/rbf.py` — consume one mapped head/tail pair per bone (taken back to
object space by `m`), skip unselected bones in selected-joints mode, and
apply the rigid-segment constraint projection `proj` (spec §4.4, steps 2–4)
to each processed bone; the numeric projection itself is real-valued and is
kept abstract here (see `lockProject` for its one-bone definition). -/
def set_armature_points (proj : Bone → Pt → Pt → Pt × Pt) (only_selected : Bool)
    (m : Pt → Pt) : List Bone → List Pt → List Bone
  | [], _ => []
  | b :: bs, h :: t :: rest =>
    let b' := if only_selected ∧ ¬b.selected then b
      else
        let ht := proj b (m h) (m t)
        { b with head := ht.1, tail := ht.2 }
    b' :: set_armature_points proj only_selected m bs rest
  | bs, _ => bs

/-- The per-object body of the armature loop (`rig/retarget_armature.py`
lines 137–165): skip non-armatures, map bone endpoints into destination
space, evaluate, and write the constrained endpoints back. -/
def processArm (φ : Pt → Pt → ℚ) {N : ℕ} (src : Fin N → Pt)
    (W : Matrix (Fin N ⊕ Fin 4) (Fin 3) ℚ) (proj : Bone → Pt → Pt → Pt × Pt)
    (inv : ArmInvocation) (obj : Obj) : Obj :=
  if obj.objType ≠ "ARMATURE" then obj
  else
    let dst_to_obj : Equiv Pt Pt :=
      if inv.cfg.use_object_transform then inv.dst_obj.xform.trans obj.xform.symm
      else Equiv.refl Pt
    let obj_to_dst := dst_to_obj.symm
    let pts := get_armature_points obj.bones fun p => obj_to_dst p
    if pts.length = 0 then obj
    else
      let new_pts := evaluateBatch φ src W pts
      { obj with bones :=
          set_armature_points proj obj.editing (fun p => dst_to_obj p) obj.bones new_pts }

/-- `GRET_OT_retarget_armature.execute`: validate, sample (with optional
mirror augmentation), swap the clouds when `invert` is set, solve, then
rewrite every selected armature; a `None` weight matrix cancels with the
reported message and leaves every object unchanged. -/
def armExecute (scales : KernelId → ℚ) (kimpl : KernelId → ℚ → Pt → Pt → ℚ)
    (proj : Bone → Pt → Pt → Pt × Pt) (inv : ArmInvocation) : OpResult × List Obj :=
  match armValidationError inv with
  | some msg => (.CANCELLED msg, inv.selected)
  | none =>
    match armWeights scales kimpl inv with
    | none => (.CANCELLED errSolveFailed, inv.selected)
    | some ws =>
      (.FINISHED, inv.selected.map
        (processArm (kernelOf scales kimpl inv.cfg.function inv.cfg.radius)
          (armEffSrc inv).get (rowsToMat ws) proj inv))

/-! ## C2 — sampler bound -/

theorem length_maskPoints (pts : List Pt) (m : List Bool)
    (h : m.length = pts.length) :
    (maskPoints (some m) pts).length = m.count true := by
  show (((pts.zip m).filter fun vm => vm.2).map fun vm => vm.1).length = m.count true
  rw [List.length_map]
  induction pts generalizing m with
  | nil =>
    cases m with
    | nil => simp
    | cons b bs => simp at h
  | cons p ps ih =>
    cases m with
    | nil => simp at h
    | cons b bs =>
      rw [List.zip_cons_cons, List.filter_cons]
      cases b
      · simpa using ih bs (by simpa using h)
      · simpa [List.count_cons] using ih bs (by simpa using h)

/-- C2 — Sampler bound: with `M ≥ 1` masked points, the mesh path uses the
cap `C = 5000` with high quality and `1000` without, computes
`stride = ceil(M / C)`, samples every stride-th masked point in index
order so the sampled count is `ceil(M / stride)`, and that count never
exceeds `C`. -/
theorem sampler_bound (inv : MeshInvocation)
    (hsel : inv.src_obj.data.selection.length = inv.src_obj.data.verts.length)
    (hM : 1 ≤ meshNumMasked inv) :
    meshStride inv = cdiv (meshNumMasked inv) (vertexCap inv.cfg) ∧
    vertexCap inv.cfg = (if inv.cfg.high_quality then 5000 else 1000) ∧
    (meshSrcPts inv).length = cdiv (meshNumMasked inv) (meshStride inv) ∧
    (meshSrcPts inv).length ≤ vertexCap inv.cfg := by
  have hcap : 1 ≤ vertexCap inv.cfg := by
    unfold vertexCap; split <;> norm_num
  have hs : 1 ≤ meshStride inv := cdiv_pos hM hcap
  have hmask : (maskPoints (meshMask inv) (meshCloud inv.src_obj.data none)).length
      = meshNumMasked inv := by
    unfold meshMask maskFor meshNumMasked numMaskedFor maskFor meshCloud
    by_cases ho : inv.cfg.only_selection
    · simp only [ho, if_true]
      exact length_maskPoints _ _ hsel
    · simp [ho, maskPoints]
  have hlen : (meshSrcPts inv).length = cdiv (meshNumMasked inv) (meshStride inv) := by
    unfold meshSrcPts get_mesh_points
    rw [length_everyNth _ hs, hmask]
  refine ⟨rfl, rfl, hlen, ?_⟩
  rw [hlen]
  exact cdiv_cdiv_le hM hcap

/-- The origin, as a concrete point. -/
def pZero : Pt := fun _ => 0

/-- A concrete identity transform. -/
def xf0 : Equiv Pt Pt := Equiv.refl Pt

/-- A one-vertex mesh with that vertex selected. -/
def singleMesh : MeshData := ⟨[pZero], [true], []⟩

def objA : Obj :=
  { id := 1, name := "A", objType := "MESH", data := singleMesh,
    xform := xf0, bones := [], editing := false }

def objB : Obj :=
  { id := 2, name := "B", objType := "MESH", data := singleMesh,
    xform := xf0, bones := [], editing := false }

/-- The default mesh configuration of the operator properties. -/
def cfg0 : MeshConfig :=
  { function := "BIHARMONIC", radius := 1/2, only_selection := false,
    high_quality := false, as_shape_key := false }

def inv0 : MeshInvocation :=
  { cfg := cfg0, selected := [], src_obj := objA, dst_obj := objB,
    dst_shape_key := none }

theorem sampler_bound_witness :
    inv0.src_obj.data.selection.length = inv0.src_obj.data.verts.length ∧
    1 ≤ meshNumMasked inv0 ∧
    (meshSrcPts inv0).length ≤ vertexCap inv0.cfg :=
  ⟨by decide, by decide, (sampler_bound inv0 (by decide) (by decide)).2.2.2⟩

/-! ## C3 — solve-failure atomicity -/

/-- C3 — Solve-failure atomicity: in both paths, when the weight solve
fails (a raised linear-algebra error in the mesh path, a `None` weight
matrix in the armature path, both embedded as `none`), the invocation
returns the typed failure message and terminates before the evaluation
loop, leaving every selected object untouched. -/
theorem solve_failure_atomic :
    (∀ (scales : KernelId → ℚ) (kimpl : KernelId → ℚ → Pt → Pt → ℚ)
        (inv : MeshInvocation),
      meshValidationError inv = none →
      meshWeights scales kimpl inv = none →
      meshExecute scales kimpl inv = (.CANCELLED errSolveFailed, inv.selected)) ∧
    (∀ (scales : KernelId → ℚ) (kimpl : KernelId → ℚ → Pt → Pt → ℚ)
        (proj : Bone → Pt → Pt → Pt × Pt) (inv : ArmInvocation),
      armValidationError inv = none →
      armWeights scales kimpl inv = none →
      armExecute scales kimpl proj inv = (.CANCELLED errSolveFailed, inv.selected)) := by
  constructor
  · intro scales kimpl inv hv hw
    unfold meshExecute
    rw [hv, hw]
  · intro scales kimpl proj inv hv hw
    unfold armExecute
    rw [hv, hw]

/-- Unit scale for every kernel, a concrete witness table. -/
def scales0 : KernelId → ℚ := fun _ => 1

/-- The all-zero kernel implementation, a concrete witness kernel. -/
def kimpl0 : KernelId → ℚ → Pt → Pt → ℚ := fun _ _ _ _ => 0

/-- The identity constraint projection (no locks). -/
def proj0 : Bone → Pt → Pt → Pt × Pt := fun _ h t => (h, t)

/-- A single-point correspondence set makes the augmented system singular
(spec §4.2 step 5: "a degenerate single-point correspondence set"), so this
invocation reaches the solve and the solve fails. -/
def invSing : MeshInvocation :=
  { cfg := cfg0, selected := [objA], src_obj := objA, dst_obj := objB,
    dst_shape_key := none }

/-- The armature configuration used by concrete witnesses. -/
def acfg0 : ArmConfig :=
  { function := "BIHARMONIC", radius := 1/2, invert := false,
    use_object_transform := false, only_selection := false,
    high_quality := false, use_mirror_x := false, lock_length := false,
    lock_direction := false }

def invSingA : ArmInvocation :=
  { cfg := acfg0, selected := [objA], src_obj := objA, dst_obj := objB,
    dst_shape_key := none, capLow := 1000, capHigh := 5000 }

set_option maxRecDepth 1000000 in
unseal Rat.add Rat.mul Rat.inv Rat.sub in
theorem solve_failure_atomic_witness :
    (meshValidationError invSing = none ∧
     meshWeights scales0 kimpl0 invSing = none ∧
     meshExecute scales0 kimpl0 invSing = (.CANCELLED errSolveFailed, invSing.selected)) ∧
    (armValidationError invSingA = none ∧
     armWeights scales0 kimpl0 invSingA = none ∧
     armExecute scales0 kimpl0 proj0 invSingA = (.CANCELLED errSolveFailed, invSingA.selected)) :=
  ⟨⟨by decide, by decide,
    solve_failure_atomic.1 scales0 kimpl0 invSing (by decide) (by decide)⟩,
   ⟨by decide, by decide,
    solve_failure_atomic.2 scales0 kimpl0 proj0 invSingA (by decide) (by decide)⟩⟩

/-! ## C4 — input-validation raises-iff -/

/-- C4 — Input validation: each path fails with a typed error before any
sampling, solving, or mutation exactly when the source mesh is empty, the
vertex counts differ, or the selection mask yields zero points; when all
three checks pass, the invocation proceeds to the weight solve, whose
outcome alone decides the result. -/
theorem validation_iff :
    (∀ (scales : KernelId → ℚ) (kimpl : KernelId → ℚ → Pt → Pt → ℚ)
        (inv : MeshInvocation),
      ((meshValidationError inv).isSome ↔
        (inv.src_obj.data.verts.length = 0 ∨
         inv.src_obj.data.verts.length ≠ inv.dst_obj.data.verts.length ∨
         meshNumMasked inv = 0)) ∧
      (∀ msg, meshValidationError inv = some msg →
        meshExecute scales kimpl inv = (.CANCELLED msg, inv.selected)) ∧
      (meshValidationError inv = none →
        (meshWeights scales kimpl inv = none ∧
          meshExecute scales kimpl inv = (.CANCELLED errSolveFailed, inv.selected)) ∨
        (∃ ws, meshWeights scales kimpl inv = some ws ∧
          (meshExecute scales kimpl inv).1 = .FINISHED))) ∧
    (∀ (scales : KernelId → ℚ) (kimpl : KernelId → ℚ → Pt → Pt → ℚ)
        (proj : Bone → Pt → Pt → Pt × Pt) (inv : ArmInvocation),
      ((armValidationError inv).isSome ↔
        (inv.src_obj.data.verts.length = 0 ∨
         inv.src_obj.data.verts.length ≠ inv.dst_obj.data.verts.length ∨
         numMaskedFor inv.cfg.only_selection inv.src_obj = 0)) ∧
      (∀ msg, armValidationError inv = some msg →
        armExecute scales kimpl proj inv = (.CANCELLED msg, inv.selected)) ∧
      (armValidationError inv = none →
        (armWeights scales kimpl inv = none ∧
          armExecute scales kimpl proj inv = (.CANCELLED errSolveFailed, inv.selected)) ∨
        (∃ ws, armWeights scales kimpl inv = some ws ∧
          (armExecute scales kimpl proj inv).1 = .FINISHED))) := by
  have hval : ∀ (s d : Obj) (os : Bool),
      (validationError s d os).isSome ↔
        (s.data.verts.length = 0 ∨ s.data.verts.length ≠ d.data.verts.length ∨
         numMaskedFor os s = 0) := by
    intro s d os
    unfold validationError
    by_cases h1 : s.data.verts.length = 0
    · simp [h1]
    · rw [if_neg h1]
      by_cases h2 : s.data.verts.length ≠ d.data.verts.length
      · simp [h1, h2]
      · rw [if_neg h2]
        by_cases h3 : numMaskedFor os s = 0
        · simp [h1, h2, h3]
        · simp [h1, h2, h3]
  constructor
  · intro scales kimpl inv
    refine ⟨hval _ _ _, fun msg hmsg => ?_, fun hnone => ?_⟩
    · unfold meshExecute
      rw [show meshValidationError inv = some msg from hmsg]
    · unfold meshExecute
      rw [hnone]
      rcases hw : meshWeights scales kimpl inv with _ | ws
      · exact Or.inl ⟨rfl, rfl⟩
      · exact Or.inr ⟨ws, rfl, rfl⟩
  · intro scales kimpl proj inv
    refine ⟨hval _ _ _, fun msg hmsg => ?_, fun hnone => ?_⟩
    · unfold armExecute
      rw [show armValidationError inv = some msg from hmsg]
    · unfold armExecute
      rw [hnone]
      rcases hw : armWeights scales kimpl inv with _ | ws
      · exact Or.inl ⟨rfl, rfl⟩
      · exact Or.inr ⟨ws, rfl, rfl⟩

/-- A mesh object with no vertices. -/
def objEmpty : Obj :=
  { id := 3, name := "E", objType := "MESH", data := ⟨[], [], []⟩,
    xform := xf0, bones := [], editing := false }

def invEmpty : MeshInvocation :=
  { cfg := cfg0, selected := [objA], src_obj := objEmpty, dst_obj := objB,
    dst_shape_key := none }

theorem validation_iff_witness :
    meshValidationError invEmpty = some errNoVerts ∧
    meshExecute scales0 kimpl0 invEmpty = (.CANCELLED errNoVerts, invEmpty.selected) :=
  ⟨by decide,
   (validation_iff.1 scales0 kimpl0 invEmpty).2.1 errNoVerts (by decide)⟩

/-! ## C7 — determinism -/

/-- C7 — Determinism: the pipeline is a pure function of its inputs — two
invocations with identical inputs produce identical solved weights and
identical results; no stage consults any randomness or external state. -/
theorem retarget_deterministic (scales : KernelId → ℚ)
    (kimpl : KernelId → ℚ → Pt → Pt → ℚ) (inv inv' : MeshInvocation)
    (h : inv = inv') :
    meshWeights scales kimpl inv = meshWeights scales kimpl inv' ∧
    meshExecute scales kimpl inv = meshExecute scales kimpl inv' := by
  subst h
  exact ⟨rfl, rfl⟩

theorem retarget_deterministic_witness :
    meshWeights scales0 kimpl0 inv0 = meshWeights scales0 kimpl0 inv0 ∧
    meshExecute scales0 kimpl0 inv0 = meshExecute scales0 kimpl0 inv0 :=
  retarget_deterministic scales0 kimpl0 inv0 inv0 rfl

/-! ## C9 — frame effect of the mesh loop -/

/-- A placeholder object used only as a `getD` default. -/
def defaultObj : Obj :=
  { id := 0, name := "", objType := "", data := ⟨[], [], []⟩,
    xform := Equiv.refl Pt, bones := [], editing := false }

/-- C9 — Frame effect: the mesh operator never touches the source object,
the destination object, or any non-mesh object, even when they are among
the selected objects; their entry in the output object list is exactly the
input object. -/
theorem frame_preservation (scales : KernelId → ℚ)
    (kimpl : KernelId → ℚ → Pt → Pt → ℚ) (inv : MeshInvocation) (i : ℕ)
    (hi : i < inv.selected.length)
    (hskip : (inv.selected.getD i defaultObj).objType ≠ "MESH" ∨
             (inv.selected.getD i defaultObj).id = inv.src_obj.id ∨
             (inv.selected.getD i defaultObj).id = inv.dst_obj.id) :
    (meshExecute scales kimpl inv).2.getD i defaultObj =
      inv.selected.getD i defaultObj := by
  unfold meshExecute
  rcases hv : meshValidationError inv with _ | msg
  · rcases hw : meshWeights scales kimpl inv with _ | ws
    · rfl
    · have hmap : (inv.selected.map
          (processObj (kernelOf scales kimpl inv.cfg.function inv.cfg.radius)
            (meshSrcPts inv).get (rowsToMat ws) inv)).getD i defaultObj =
          processObj (kernelOf scales kimpl inv.cfg.function inv.cfg.radius)
            (meshSrcPts inv).get (rowsToMat ws) inv (inv.selected.getD i defaultObj) := by
        rw [List.getD_eq_get _ _ (by simpa using hi), List.getD_eq_get _ _ hi,
          List.get_map]
      show (inv.selected.map _).getD i defaultObj = _
      rw [hmap]
      unfold processObj
      rw [if_pos hskip]
  · rfl

theorem frame_preservation_witness :
    (0 : ℕ) < invSing.selected.length ∧
    (invSing.selected.getD 0 defaultObj).id = invSing.src_obj.id ∧
    (meshExecute scales0 kimpl0 invSing).2.getD 0 defaultObj =
      invSing.selected.getD 0 defaultObj :=
  ⟨by decide, by decide,
   frame_preservation scales0 kimpl0 invSing 0 (by decide)
     (Or.inr (Or.inl (by decide)))⟩

/-! ## C10 — kernel fallback -/

/-- The six kernel names of the operator enum. -/
def kernelNames : List String :=
  ["LINEAR", "GAUSSIAN", "PLATE", "BIHARMONIC", "INV_BIHARMONIC", "C2"]

/-- C10 — Kernel fallback: a function name outside the kernel table does
not fail the operation — the lookup falls back to the linear kernel at
scale 1.0, the pipeline runs with exactly that kernel, and with valid
inputs and a successful solve the invocation still finishes. -/
theorem kernel_fallback :
    (∀ (scales : KernelId → ℚ) (name : String), name ∉ kernelNames →
      lookupKernel scales name = (.LINEAR, 1)) ∧
    (∀ (scales : KernelId → ℚ) (kimpl : KernelId → ℚ → Pt → Pt → ℚ)
        (name : String) (radius : ℚ), name ∉ kernelNames →
      kernelOf scales kimpl name radius = kimpl .LINEAR (radius * 1)) ∧
    (∀ (scales : KernelId → ℚ) (kimpl : KernelId → ℚ → Pt → Pt → ℚ)
        (inv : MeshInvocation), inv.cfg.function ∉ kernelNames →
      meshValidationError inv = none →
      ∀ ws, meshWeights scales kimpl inv = some ws →
      (meshExecute scales kimpl inv).1 = .FINISHED) := by
  have hlook : ∀ (scales : KernelId → ℚ) (name : String), name ∉ kernelNames →
      lookupKernel scales name = (.LINEAR, 1) := by
    intro scales name h
    simp only [kernelNames, List.mem_cons, List.not_mem_nil, or_false, not_or] at h
    obtain ⟨h1, h2, h3, h4, h5, h6⟩ := h
    unfold lookupKernel rbf_kernels
    simp [List.lookup, beq_eq_false_iff_ne.mpr h1, beq_eq_false_iff_ne.mpr h2,
      beq_eq_false_iff_ne.mpr h3, beq_eq_false_iff_ne.mpr h4,
      beq_eq_false_iff_ne.mpr h5, beq_eq_false_iff_ne.mpr h6]
  refine ⟨hlook, fun scales kimpl name radius h => ?_, fun scales kimpl inv h hv ws hw => ?_⟩
  · unfold kernelOf
    rw [hlook scales name h]
  · unfold meshExecute
    rw [hv, hw]

theorem kernel_fallback_witness :
    "FOO" ∉ kernelNames ∧ lookupKernel scales0 "FOO" = (.LINEAR, 1) :=
  ⟨by decide, kernel_fallback.1 scales0 "FOO" (by decide)⟩

/-! ## C8 — invert handled once at the sampler boundary -/

/-- The armature solve stage at the cloud level: sample both clouds with
the same mask, stride and mirror setting, swap them exactly when `invert`
is set, and fit. -/
def armFitClouds (φ : Pt → Pt → ℚ) (mask : Option (List Bool)) (stride : ℕ)
    (mirror invert : Bool) (srcCloud dstCloud : List Pt) : Option (List (List ℚ)) :=
  let s := (if mirror then mirrorPts else id) (everyNth stride (maskPoints mask srcCloud))
  let d := (if mirror then mirrorPts else id) (everyNth stride (maskPoints mask dstCloud))
  if invert then fitWeights φ d s else fitWeights φ s d

/-- C8 — Invert at the sampler boundary: the source/destination exchange
happens exactly once, after sampling and before the solve — fitting with
`invert` on equals fitting with `invert` off and the two input clouds
swapped; the armature pipeline's solve is exactly this cloud-level stage;
and no later stage depends on the flag: two invocations differing only in
`invert` whose solve stages agree produce identical results. -/
theorem invert_at_sampler_boundary :
    (∀ (φ : Pt → Pt → ℚ) (mask : Option (List Bool)) (stride : ℕ) (mirror : Bool)
        (a b : List Pt),
      armFitClouds φ mask stride mirror true a b =
        armFitClouds φ mask stride mirror false b a) ∧
    (∀ (scales : KernelId → ℚ) (kimpl : KernelId → ℚ → Pt → Pt → ℚ)
        (inv : ArmInvocation),
      armWeights scales kimpl inv =
        armFitClouds (kernelOf scales kimpl inv.cfg.function inv.cfg.radius)
          (armMask inv) (armStride inv) inv.cfg.use_mirror_x inv.cfg.invert
          (meshCloud inv.src_obj.data none) (meshCloud inv.dst_obj.data inv.dst_shape_key)) ∧
    (∀ (scales : KernelId → ℚ) (kimpl : KernelId → ℚ → Pt → Pt → ℚ)
        (proj : Bone → Pt → Pt → Pt × Pt) (inv : ArmInvocation) (b : Bool),
      armWeights scales kimpl { inv with cfg := { inv.cfg with invert := b } } =
        armWeights scales kimpl inv →
      armEffSrc { inv with cfg := { inv.cfg with invert := b } } = armEffSrc inv →
      armExecute scales kimpl proj { inv with cfg := { inv.cfg with invert := b } } =
        armExecute scales kimpl proj inv) := by
  refine ⟨fun φ mask stride mirror a b => rfl, fun scales kimpl inv => ?_, ?_⟩
  · cases hinv : inv.cfg.invert <;> cases hmir : inv.cfg.use_mirror_x <;>
      simp [armWeights, armFitClouds, armEffSrc, armEffDst, armSrcSampled,
        armDstSampled, armSample, get_mesh_points, hinv, hmir]
  · intro scales kimpl proj inv b hW hS
    unfold armExecute
    rw [hW, hS]
    rfl

theorem invert_at_sampler_boundary_witness :
    armFitClouds phi0 none 1 false true [pZero] [q0] =
      armFitClouds phi0 none 1 false false [q0] [pZero] ∧
    armExecute scales0 kimpl0 proj0
        { invSingA with cfg := { invSingA.cfg with invert := false } } =
      armExecute scales0 kimpl0 proj0 invSingA :=
  ⟨invert_at_sampler_boundary.1 phi0 none 1 false [pZero] [q0],
   invert_at_sampler_boundary.2.2 scales0 kimpl0 proj0 invSingA false rfl rfl⟩

/-! ## C6 — length lock (constraint projector, over ℝ)

The numeric lock logic of `set_armature_points` lives in the absent
`gret/rbf.py`; it is modelled from the spec §4.4, steps 2–4, over the real
numbers since it divides by a Euclidean norm. -/

/-- A real 3-component point. -/
abbrev RPt : Type := Fin 3 → ℝ

/-- The Euclidean norm of a real 3-vector. -/
noncomputable def norm3 (v : RPt) : ℝ := Real.sqrt (v 0 ^ 2 + v 1 ^ 2 + v 2 ^ 2)

theorem norm3_nonneg (v : RPt) : 0 ≤ norm3 v := Real.sqrt_nonneg _

theorem norm3_smul (c : ℝ) (v : RPt) :
    norm3 (fun k => c * v k) = |c| * norm3 v := by
  unfold norm3
  rw [show (c * v 0) ^ 2 + (c * v 1) ^ 2 + (c * v 2) ^ 2
      = c ^ 2 * (v 0 ^ 2 + v 1 ^ 2 + v 2 ^ 2) by ring,
    Real.sqrt_mul (sq_nonneg c), Real.sqrt_sq_eq_abs]

/-- Modelled from the spec, §4.4 steps 2–4: the per-bone constraint
projection.  With `lockDirection`, the tail is recomputed from the original
direction and length (`head' + originalDirection·originalLength`, i.e.
`head'` plus the original tail offset); else with `lockLength`, the mapped
tail is rescaled along the mapped direction so the segment keeps its
original length; else both mapped endpoints are used unchanged. -/
noncomputable def lockProject (lock_length lock_direction : Bool)
    (origHead origTail head1 tail1 : RPt) : RPt × RPt :=
  if lock_direction then
    (head1, fun k => head1 k + (origTail k - origHead k))
  else if lock_length then
    (head1, fun k => head1 k +
      norm3 (fun j => origTail j - origHead j) / norm3 (fun j => tail1 j - head1 j)
        * (tail1 k - head1 k))
  else (head1, tail1)

/-- C6 — Length lock: with `lock_length` set and `lock_direction` unset,
the projected bone keeps its independently mapped direction (the new tail
offset is a non-negative multiple of the mapped offset) and its
post-retarget head-to-tail distance equals the bone's original length
within 1e-5 (here: exactly), whenever the mapped endpoints are distinct. -/
theorem length_lock (origHead origTail head1 tail1 : RPt)
    (hne : norm3 (fun j => tail1 j - head1 j) ≠ 0) :
    (∃ c : ℝ, 0 ≤ c ∧ ∀ k,
      (lockProject true false origHead origTail head1 tail1).2 k -
        (lockProject true false origHead origTail head1 tail1).1 k =
      c * (tail1 k - head1 k)) ∧
    |norm3 (fun j => (lockProject true false origHead origTail head1 tail1).2 j -
        (lockProject true false origHead origTail head1 tail1).1 j) -
      norm3 (fun j => origTail j - origHead j)| ≤ 1 / 100000 := by
  have hL : 0 ≤ norm3 fun j => origTail j - origHead j := norm3_nonneg _
  have hn : 0 < norm3 fun j => tail1 j - head1 j :=
    lt_of_le_of_ne (norm3_nonneg _) (Ne.symm hne)
  set L : ℝ := norm3 fun j => origTail j - origHead j with hLdef
  set n : ℝ := norm3 fun j => tail1 j - head1 j with hndef
  have hproj : lockProject true false origHead origTail head1 tail1 =
      (head1, fun k => head1 k + L / n * (tail1 k - head1 k)) := by
    unfold lockProject
    simp
  rw [hproj]
  constructor
  · exact ⟨L / n, div_nonneg hL (le_of_lt hn), fun k => by ring⟩
  · have hdiff : (fun j => (head1 j + L / n * (tail1 j - head1 j)) - head1 j)
        = fun j => L / n * (tail1 j - head1 j) := by
      funext j
      ring
    rw [hdiff, norm3_smul, ← hndef, abs_of_nonneg (div_nonneg hL (le_of_lt hn)),
      div_mul_cancel₀ _ (ne_of_gt hn), sub_self, abs_zero]
    norm_num

/-- Concrete witness points for the length lock: a bone originally from the
origin to `(2,0,0)`, whose endpoints were mapped to the origin and
`(0,3,0)`. -/
noncomputable def rHead : RPt := fun _ => 0

noncomputable def rTailOrig : RPt := fun k => if k = 0 then 2 else 0

noncomputable def rTailMapped : RPt := fun k => if k = 1 then 3 else 0

theorem length_lock_witness :
    norm3 (fun j => rTailMapped j - rHead j) ≠ 0 ∧
    ((∃ c : ℝ, 0 ≤ c ∧ ∀ k,
      (lockProject true false rHead rTailOrig rHead rTailMapped).2 k -
        (lockProject true false rHead rTailOrig rHead rTailMapped).1 k =
      c * (rTailMapped k - rHead k)) ∧
    |norm3 (fun j => (lockProject true false rHead rTailOrig rHead rTailMapped).2 j -
        (lockProject true false rHead rTailOrig rHead rTailMapped).1 j) -
      norm3 (fun j => rTailOrig j - rHead j)| ≤ 1 / 100000) := by
  have e0 : rTailMapped 0 = 0 := by
    unfold rTailMapped; rw [if_neg (by decide : ¬(0 : Fin 3) = 1)]
  have e1 : rTailMapped 1 = 3 := by
    unfold rTailMapped; rw [if_pos (by decide : (1 : Fin 3) = 1)]
  have e2 : rTailMapped 2 = 0 := by
    unfold rTailMapped; rw [if_neg (by decide : ¬(2 : Fin 3) = 1)]
  have hne : norm3 (fun j => rTailMapped j - rHead j) ≠ 0 := by
    show Real.sqrt ((rTailMapped 0 - rHead 0) ^ 2 + (rTailMapped 1 - rHead 1) ^ 2 +
      (rTailMapped 2 - rHead 2) ^ 2) ≠ 0
    rw [e0, e1, e2, show rHead 0 = 0 from rfl, show rHead 1 = 0 from rfl,
      show rHead 2 = 0 from rfl,
      show ((0 : ℝ) - 0) ^ 2 + (3 - 0) ^ 2 + (0 - 0) ^ 2 = 9 by norm_num,
      Real.sqrt_ne_zero']
    norm_num
  exact ⟨hne, length_lock rHead rTailOrig rHead rTailMapped hne⟩
